import Mathlib

/-!
# Bucket-backed alertmanager config store

A shallow embedding of `pkg/alertmanager/alertstore/bucketclient/bucket_client.go`.

The file under study is an adapter: every method of `BucketAlertStore` is a few
lines over the `objstore.Bucket` interface (`Iter`, `Get`, `Upload`, `Delete`,
`IsObjNotFoundErr`) and over the protobuf codec of `alertspb.AlertConfigDesc`
(`Marshal`, `Unmarshal`).  Neither the bucket nor the codec is part of the
file, so both are parameters of the embedding:

* `Bucket σ` is the bucket interface over an explicit store state `σ`;
* `Codec` is the pair `Marshal` / `Unmarshal`.

Go's `error` is the type `Error`; a nil error is `none : Option Error`.
Methods that write to the bucket return the new store state next to their Go
result; methods that only query it are functions of the state.

What the object store is expected to do (a key holds at most one object, a
successful upload overwrites, a successful delete removes, ...) is collected in
`KeyValueLaws`, which the state-dependent theorems take as a hypothesis; the
error-handling theorems hold for every bucket whatsoever.
-/

namespace Bucketclient

/-! ## Errors -/

/-- Modelled from the spec: the errors of the store and the domain-level "config
not found" signal, declared outside this file.  These are Go `error` values:
`ErrNotFound` is the sentinel `alertspb.ErrNotFound`;
`errorString` is any other opaque error, told apart by its text (errors of the
bucket, of `ioutil.ReadAll`, of the codec); `withMessage cause msg` is what
`errors.Wrapf(cause, msg)` builds. -/
inductive Error where
  | ErrNotFound : Error
  | errorString (msg : String) : Error
  | withMessage (cause : Error) (msg : String) : Error
  deriving DecidableEq, Repr

/-- `errors.Wrapf(err, format, args...)` with the message already formatted:
nil stays nil, any other error is wrapped. -/
def Wrapf : Option Error → String → Option Error
  | none, _ => none
  | some e, msg => some (Error.withMessage e msg)

/-! ## Payloads and configs -/

/-- A `[]byte`. -/
abbrev Bytes := List (Fin 256)

/-- Modelled from the spec: `alertspb.TemplateDesc`, declared outside this file;
part of the opaque payload of a record. -/
structure TemplateDesc where
  Filename : String
  Body : String
  deriving DecidableEq, Repr

/-- Modelled from the spec: `alertspb.AlertConfigDesc`, declared outside this
file: the per-tenant configuration record, identified by tenant ID (`User`) and
holding an opaque payload.  The adapter reads only the field `User`. -/
structure AlertConfigDesc where
  User : String
  RawConfig : String
  Templates : List TemplateDesc
  deriving DecidableEq, Repr

/-- The zero value `alertspb.AlertConfigDesc{}`. -/
def AlertConfigDesc.zero : AlertConfigDesc := ⟨"", "", []⟩

/-- The protobuf codec of `AlertConfigDesc`: `cfg.Marshal()` and
`config.Unmarshal(buf)` (the latter returning the filled config). -/
structure Codec where
  Marshal : AlertConfigDesc → Except Error Bytes
  Unmarshal : Bytes → Except Error AlertConfigDesc

/-! ## The bucket interface -/

/-- The `io.ReadCloser` handed out by `Bucket.Get`, reduced to what
`ioutil.ReadAll` makes of it: the whole body, or a read error. -/
structure ReadCloser where
  ReadAll : Except Error Bytes

/-- The `objstore.Bucket` interface, as far as the adapter uses it, over a store
state `σ`.

* `Iter st dir` is the sequence of names the bucket hands to the callback of
  `Iter(ctx, dir, f)`, in order, and the error (if any) with which the listing
  itself ends after them;
* `Get st key` opens the object or fails;
* `Upload st key body` and `Delete st key` return the store state they leave
  behind and their error;
* `IsObjNotFoundErr` is applied by the adapter to possibly-nil errors. -/
structure Bucket (σ : Type) where
  Iter : σ → String → List String × Option Error
  Get : σ → String → Except Error ReadCloser
  Upload : σ → String → Bytes → σ × Option Error
  Delete : σ → String → σ × Option Error
  IsObjNotFoundErr : Option Error → Bool

/-- Modelled from the spec: the "list keys" operation of the store, declared
outside this file, as far as its callback goes.
Runs the callback `f` of a `Bucket.Iter` call over the listed names: `f` is
called on each name in turn with the state `acc` of the variables it captures;
the first error of `f` ends the iteration and is what `Iter` returns; when `f`
never fails, `Iter` returns the error of the listing itself. -/
def runIter {α : Type} (f : String → α → α × Option Error) :
    List String → Option Error → α → α × Option Error
  | [], listErr, acc => (acc, listErr)
  | key :: rest, listErr, acc =>
    match f key acc with
    | (acc', some err) => (acc', some err)
    | (acc', none) => runIter f rest listErr acc'

/-! ## Go maps -/

/-- Lookup in an association list keyed by strings: the first entry under `u`. -/
def Assoc.get? {β : Type} : List (String × β) → String → Option β
  | [], _ => none
  | (k, v) :: m, u => if k = u then some v else Assoc.get? m u

/-- Removal of every entry under `k`. -/
def Assoc.erase {β : Type} (m : List (String × β)) (k : String) : List (String × β) :=
  m.filter (fun p => decide (p.1 ≠ k))

/-- Overwriting assignment: the entries under `k` are replaced by one new entry. -/
def Assoc.set {β : Type} (m : List (String × β)) (k : String) (v : β) : List (String × β) :=
  (k, v) :: Assoc.erase m k

/-- A `map[string]alertspb.AlertConfigDesc`, as an association list. -/
abbrev CfgMap := List (String × AlertConfigDesc)

/-- The read `m[k]` with its presence flag. -/
abbrev CfgMap.get? (m : CfgMap) (k : String) : Option AlertConfigDesc := Assoc.get? m k

/-- The assignment `m[k] = v`: an entry under `k` is replaced. -/
abbrev CfgMap.set (m : CfgMap) (k : String) (v : AlertConfigDesc) : CfgMap := Assoc.set m k v

/-- The keys of the map. -/
abbrev CfgMap.keys (m : CfgMap) : List String := m.map Prod.fst

/-- The number of entries, `len(m)`. -/
abbrev CfgMap.len (m : CfgMap) : Nat := m.length

/-! ## The adapter -/

/-- The struct `BucketAlertStore`: the (prefixed) bucket client, with the codec
of the records it stores.  The fields `cfgProvider` and `logger` take no part
in any result. -/
structure BucketAlertStore (σ : Type) where
  bucket : Bucket σ
  codec : Codec

namespace BucketAlertStore

variable {σ : Type}

/-- The method `getAlertConfig`: open the object, read it whole, decode it.  Each of the
three steps returns the zero config with its error when it fails. -/
def getAlertConfig (s : BucketAlertStore σ) (st : σ) (key : String) :
    AlertConfigDesc × Option Error :=
  match s.bucket.Get st key with
  | .error err => (AlertConfigDesc.zero, some err)
  | .ok readCloser =>
    match readCloser.ReadAll with
    | .error err => (AlertConfigDesc.zero, some err)
    | .ok buf =>
      match s.codec.Unmarshal buf with
      | .error err => (AlertConfigDesc.zero, some err)
      | .ok config => (config, none)

/-- The callback that `ListAlertConfigs` passes to `Iter`; `cfgs` is the map it
captures. -/
def listCallback (s : BucketAlertStore σ) (st : σ) (key : String) (cfgs : CfgMap) :
    CfgMap × Option Error :=
  let userID := key
  match s.getAlertConfig st userID with
  | (_, some err) =>
    (cfgs, Wrapf (some err) ("failed to fetch alertmanager config for user " ++ userID))
  | (cfg, none) => (cfgs.set cfg.User cfg, none)

/-- The method `ListAlertConfigs`.  The map result is `none` for Go's nil map. -/
def ListAlertConfigs (s : BucketAlertStore σ) (st : σ) : Option CfgMap × Option Error :=
  match runIter (s.listCallback st) (s.bucket.Iter st "").1 (s.bucket.Iter st "").2 [] with
  | (_, some err) => (none, some err)
  | (cfgs, none) => (some cfgs, none)

/-- The method `GetAlertConfig`. -/
def GetAlertConfig (s : BucketAlertStore σ) (st : σ) (userID : String) :
    AlertConfigDesc × Option Error :=
  let (cfg, err) := s.getAlertConfig st userID
  if s.bucket.IsObjNotFoundErr err then (cfg, some Error.ErrNotFound) else (cfg, err)

/-- The method `SetAlertConfig`: the store state it leaves, and its error. -/
def SetAlertConfig (s : BucketAlertStore σ) (st : σ) (cfg : AlertConfigDesc) :
    σ × Option Error :=
  match s.codec.Marshal cfg with
  | .error err => (st, some err)
  | .ok cfgBytes => s.bucket.Upload st cfg.User cfgBytes

/-- The method `DeleteAlertConfig`: the store state it leaves, and its error. -/
def DeleteAlertConfig (s : BucketAlertStore σ) (st : σ) (userID : String) :
    σ × Option Error :=
  let (st', err) := s.bucket.Delete st userID
  if s.bucket.IsObjNotFoundErr err then (st', none) else (st', err)

end BucketAlertStore

/-- A call of one of the four public methods. -/
inductive Call where
  | ListAlertConfigs : Call
  | GetAlertConfig (userID : String) : Call
  | SetAlertConfig (cfg : AlertConfigDesc) : Call
  | DeleteAlertConfig (userID : String) : Call
  deriving DecidableEq, Repr

/-- The store state after a call: the two reading methods invoke only `Iter` and
`Get`, so they hand the state on; the two writing methods hand on what `Upload`
or `Delete` left. -/
def Call.exec {σ : Type} (s : BucketAlertStore σ) (st : σ) : Call → σ
  | .ListAlertConfigs => st
  | .GetAlertConfig _ => st
  | .SetAlertConfig cfg => (s.SetAlertConfig st cfg).1
  | .DeleteAlertConfig userID => (s.DeleteAlertConfig st userID).1

/-- The store state after a sequence of calls, first call first. -/
def execAll {σ : Type} (s : BucketAlertStore σ) : σ → List Call → σ
  | st, [] => st
  | st, c :: cs => execAll s (c.exec s st) cs

/-! ## Outcomes of the fetch of one record, and of the listing loop -/

/-- The fetch of the record under `key` fails with `e`: the bucket's `Get` fails
with `e`, or the object opens and reading its body fails with `e`, or the body
is read and decoding it fails with `e`. -/
def FetchFails {σ : Type} (s : BucketAlertStore σ) (st : σ) (key : String) (e : Error) :
    Prop :=
  s.bucket.Get st key = .error e ∨
  (∃ r, s.bucket.Get st key = .ok r ∧ r.ReadAll = .error e) ∨
  (∃ r buf, s.bucket.Get st key = .ok r ∧ r.ReadAll = .ok buf ∧
    s.codec.Unmarshal buf = .error e)

/-- The fetch of the record under `key` succeeds with `c`. -/
def FetchYields {σ : Type} (s : BucketAlertStore σ) (st : σ) (key : String)
    (c : AlertConfigDesc) : Prop :=
  ∃ r buf, s.bucket.Get st key = .ok r ∧ r.ReadAll = .ok buf ∧ s.codec.Unmarshal buf = .ok c

/-- The map that the callback of `ListAlertConfigs` builds from `acc` over the
keys `ks` when every fetch succeeds. -/
def collect {σ : Type} (s : BucketAlertStore σ) (st : σ) (acc : CfgMap) (ks : List String) :
    CfgMap :=
  ks.foldl (fun m k => m.set (s.getAlertConfig st k).1.User (s.getAlertConfig st k).1) acc

/-! ## What the object store is expected to do -/

/-- Modelled from the spec: the key-value/object-store dependency (list keys, get
an object by key, put (overwrite) an object by key, delete an object by key,
and its "not found" check), declared outside this file.
The contract of a key-value object store, stated against an abstraction
`objects st k` of the store state: the object held under key `k`, if any.

Reads are faithful: `Get` hands out the stored object, and reports a missing
key by an error that `IsObjNotFoundErr` recognises; `IsObjNotFoundErr` rejects
nil.  Writes may fail: a successful `Upload` overwrites the key and nothing
else, a successful `Delete` removes the key and nothing else, a failed write
leaves every object as it was.  `Delete` reports not-found only for a missing
key, and on a missing key it either succeeds or reports not-found.  A listing
of the root that ends without error names every stored key once. -/
structure KeyValueLaws {σ : Type} (B : Bucket σ) (objects : σ → String → Option Bytes) :
    Prop where
  notFound_nil : B.IsObjNotFoundErr none = false
  get_some : ∀ st k b, objects st k = some b → B.Get st k = .ok ⟨.ok b⟩
  get_none : ∀ st k, objects st k = none →
    ∃ e, B.Get st k = .error e ∧ B.IsObjNotFoundErr (some e) = true
  upload_ok : ∀ st k b st', B.Upload st k b = (st', none) →
    ∀ k', objects st' k' = if k' = k then some b else objects st k'
  upload_err : ∀ st k b st' e, B.Upload st k b = (st', some e) → objects st' = objects st
  delete_ok : ∀ st k st', B.Delete st k = (st', none) →
    ∀ k', objects st' k' = if k' = k then none else objects st k'
  delete_err : ∀ st k st' e, B.Delete st k = (st', some e) → objects st' = objects st
  delete_notFound : ∀ st k st' e, B.Delete st k = (st', some e) →
    B.IsObjNotFoundErr (some e) = true → objects st k = none
  delete_absent : ∀ st k, objects st k = none →
    (B.Delete st k).2 = none ∨ B.IsObjNotFoundErr (B.Delete st k).2 = true
  iter_ok : ∀ st ks, B.Iter st "" = (ks, none) →
    ks.Nodup ∧ ∀ k, k ∈ ks ↔ objects st k ≠ none

/-- The outcome of the store's `Delete` is determined by the stored objects: on
two store states holding the same objects it ends with the same error, or
with none on both. -/
def DeleteDetermined {σ : Type} (B : Bucket σ) (objects : σ → String → Option Bytes) : Prop :=
  ∀ st₁ st₂ k, objects st₁ = objects st₂ → (B.Delete st₁ k).2 = (B.Delete st₂ k).2

/-- The codec law used by the round-trip properties: what `Marshal` produces,
`Unmarshal` decodes to the config it came from. -/
def Codec.RoundTrip (C : Codec) : Prop :=
  ∀ c b, C.Marshal c = .ok b → C.Unmarshal b = .ok c

/-- The invariant of the stored records: the object under each key decodes to a
config of that tenant. -/
def KeyedByUser {σ : Type} (C : Codec) (objects : σ → String → Option Bytes) (st : σ) : Prop :=
  ∀ k b, objects st k = some b → ∃ c, C.Unmarshal b = .ok c ∧ c.User = k

/-! ## An in-memory bucket -/

/-- The error with which the in-memory bucket reports a missing object. -/
def memNotFound : Error := Error.errorString "inmem: object not found"

/-- The error with which the in-memory bucket refuses a write. -/
def memDenied : Error := Error.errorString "inmem: access denied"

/-- An in-memory bucket: the state is the list of stored objects; writes to the
keys in `denied` are refused. -/
def memBucket (denied : List String) : Bucket (List (String × Bytes)) where
  Iter := fun st _ => ((st.map Prod.fst).dedup, none)
  Get := fun st k =>
    match Assoc.get? st k with
    | some b => .ok ⟨.ok b⟩
    | none => .error memNotFound
  Upload := fun st k b =>
    if k ∈ denied then (st, some memDenied) else (Assoc.set st k b, none)
  Delete := fun st k =>
    match Assoc.get? st k with
    | none => (st, some memNotFound)
    | some _ => if k ∈ denied then (st, some memDenied) else (Assoc.erase st k, none)
  IsObjNotFoundErr := fun e => decide (e = some memNotFound)

/-- A bucket with one object, `"u1"`, that opens but whose body cannot be read:
the read ends in the bucket's not-found error (a client that fetches lazily). -/
def lazyBucket : Bucket Unit where
  Iter := fun _ _ => (["u1"], none)
  Get := fun _ k => if k = "u1" then .ok ⟨.error memNotFound⟩ else .error memNotFound
  Upload := fun st _ _ => (st, none)
  Delete := fun st _ => (st, none)
  IsObjNotFoundErr := fun e => decide (e = some memNotFound)

/-- A bucket that lists one key, `"u1"`, and fails every call on it with `err`;
`IsObjNotFoundErr` recognises `memNotFound`. -/
def failingBucket (err : Error) : Bucket Unit where
  Iter := fun _ _ => (["u1"], none)
  Get := fun _ _ => .error err
  Upload := fun st _ _ => (st, some err)
  Delete := fun st _ => (st, some err)
  IsObjNotFoundErr := fun e => decide (e = some memNotFound)

/-- A bucket that holds one object, `"u1"`, and whose listing names it and then
breaks. -/
def brokenListBucket : Bucket Unit where
  Iter := fun _ _ => (["u1"], some (Error.errorString "list: timeout"))
  Get := fun _ k => if k = "u1" then .ok ⟨.ok [1]⟩ else .error memNotFound
  Upload := fun st _ _ => (st, none)
  Delete := fun st _ => (st, none)
  IsObjNotFoundErr := fun e => decide (e = some memNotFound)

/-- A record of tenant `u1`. -/
def cfgA : AlertConfigDesc := ⟨"u1", "route: a", []⟩

/-- A second record of tenant `u1`. -/
def cfgA2 : AlertConfigDesc := ⟨"u1", "route: a2", [⟨"t.tmpl", "body"⟩]⟩

/-- A record of tenant `u2`. -/
def cfgB : AlertConfigDesc := ⟨"u2", "route: b", []⟩

/-- A small codec: it encodes the three sample records and refuses every other
config; it decodes exactly what it encodes. -/
def tableCodec : Codec where
  Marshal := fun c =>
    if c = cfgA then .ok [1]
    else if c = cfgA2 then .ok [2]
    else if c = cfgB then .ok [3]
    else .error (Error.errorString "marshal: unsupported")
  Unmarshal := fun b =>
    if b = [1] then .ok cfgA
    else if b = [2] then .ok cfgA2
    else if b = [3] then .ok cfgB
    else .error (Error.errorString "unmarshal: bad payload")

/-- The in-memory store used in the examples. -/
def memStore (denied : List String) : BucketAlertStore (List (String × Bytes)) :=
  ⟨memBucket denied, tableCodec⟩

/-- A record whose tenant ID is the empty string. -/
def cfgE : AlertConfigDesc := ⟨"", "route: e", []⟩

/-- A codec that encodes the record `cfgE` alone, and decodes what it encodes. -/
def emptyUserCodec : Codec where
  Marshal := fun c =>
    if c = cfgE then .ok [4] else .error (Error.errorString "marshal: unsupported")
  Unmarshal := fun b =>
    if b = [4] then .ok cfgE else .error (Error.errorString "unmarshal: bad payload")

/-- An in-memory bucket whose listing of the root leaves out the object stored
under the empty name; `Get`, `Upload`, `Delete` and the not-found check are
those of `memBucket []`. -/
def rootSkipBucket : Bucket (List (String × Bytes)) where
  Iter := fun st _ => (((st.map Prod.fst).dedup).filter (fun k => decide (k ≠ "")), none)
  Get := (memBucket []).Get
  Upload := (memBucket []).Upload
  Delete := (memBucket []).Delete
  IsObjNotFoundErr := (memBucket []).IsObjNotFoundErr

/-! # Theorems -/

open BucketAlertStore

variable {σ : Type}

/-! ## The fetch of one record -/

theorem getAlertConfig_of_fails {s : BucketAlertStore σ} {st : σ} {key : String} {e : Error}
    (h : FetchFails s st key e) : s.getAlertConfig st key = (AlertConfigDesc.zero, some e) := by
  rcases h with h | ⟨r, h, hr⟩ | ⟨r, buf, h, hr, hu⟩
  · simp [getAlertConfig, h]
  · simp [getAlertConfig, h, hr]
  · simp [getAlertConfig, h, hr, hu]

theorem getAlertConfig_of_yields {s : BucketAlertStore σ} {st : σ} {key : String}
    {c : AlertConfigDesc} (h : FetchYields s st key c) :
    s.getAlertConfig st key = (c, none) := by
  obtain ⟨r, buf, h, hr, hu⟩ := h
  simp [getAlertConfig, h, hr, hu]

theorem getAlertConfig_cases (s : BucketAlertStore σ) (st : σ) (key : String) :
    (∃ e, FetchFails s st key e) ∨ (∃ c, FetchYields s st key c) := by
  cases h : s.bucket.Get st key with
  | error e => exact Or.inl ⟨e, Or.inl h⟩
  | ok r =>
    cases hr : r.ReadAll with
    | error e => exact Or.inl ⟨e, Or.inr (Or.inl ⟨r, h, hr⟩)⟩
    | ok buf =>
      cases hu : s.codec.Unmarshal buf with
      | error e => exact Or.inl ⟨e, Or.inr (Or.inr ⟨r, buf, h, hr, hu⟩)⟩
      | ok c => exact Or.inr ⟨c, r, buf, h, hr, hu⟩

theorem fetchFails_of_getAlertConfig {s : BucketAlertStore σ} {st : σ} {key : String}
    {e : Error} (h : (s.getAlertConfig st key).2 = some e) : FetchFails s st key e := by
  rcases getAlertConfig_cases s st key with ⟨e', hf⟩ | ⟨c, hy⟩
  · rw [getAlertConfig_of_fails hf] at h
    simp at h
    exact h ▸ hf
  · rw [getAlertConfig_of_yields hy] at h
    simp at h

theorem fetchYields_of_getAlertConfig {s : BucketAlertStore σ} {st : σ} {key : String}
    (h : (s.getAlertConfig st key).2 = none) :
    FetchYields s st key (s.getAlertConfig st key).1 := by
  rcases getAlertConfig_cases s st key with ⟨e', hf⟩ | ⟨c, hy⟩
  · rw [getAlertConfig_of_fails hf] at h
    simp at h
  · rw [getAlertConfig_of_yields hy]
    exact hy

theorem GetAlertConfig_eq (s : BucketAlertStore σ) (st : σ) (u : String) :
    s.GetAlertConfig st u =
      if s.bucket.IsObjNotFoundErr (s.getAlertConfig st u).2 then
        ((s.getAlertConfig st u).1, some Error.ErrNotFound)
      else s.getAlertConfig st u := by
  simp [GetAlertConfig]

theorem DeleteAlertConfig_eq (s : BucketAlertStore σ) (st : σ) (u : String) :
    s.DeleteAlertConfig st u =
      if s.bucket.IsObjNotFoundErr (s.bucket.Delete st u).2 then ((s.bucket.Delete st u).1, none)
      else s.bucket.Delete st u := by
  simp [DeleteAlertConfig]

/-! ## Error handling of the single-record methods -/

/-- Claim C3.  Whenever the store primitive behind `GetAlertConfig`,
`SetAlertConfig` or `DeleteAlertConfig` (`Get`, `Upload`, `Delete`) fails with an
error `e` that the store does not classify as not-found, the method returns
exactly `e`; `GetAlertConfig` returns it with the zero config.  `Upload` is
reached once `Marshal` has succeeded. -/
theorem store_error_passes_through (s : BucketAlertStore σ) (st : σ) (e : Error)
    (hnf : s.bucket.IsObjNotFoundErr (some e) = false) :
    (∀ u, s.bucket.Get st u = .error e →
      s.GetAlertConfig st u = (AlertConfigDesc.zero, some e)) ∧
    (∀ cfg b st', s.codec.Marshal cfg = .ok b → s.bucket.Upload st cfg.User b = (st', some e) →
      s.SetAlertConfig st cfg = (st', some e)) ∧
    (∀ u st', s.bucket.Delete st u = (st', some e) →
      s.DeleteAlertConfig st u = (st', some e)) := by
  refine ⟨?_, ?_, ?_⟩
  · intro u h
    rw [GetAlertConfig_eq, getAlertConfig_of_fails (Or.inl h)]
    simp [hnf]
  · intro cfg b st' hm hu
    simp [SetAlertConfig, hm, hu]
  · intro u st' h
    rw [DeleteAlertConfig_eq, h]
    simp [hnf]

/-- Claim C3 at the bucket that fails every call with `"boom"`. -/
theorem store_error_passes_through_witness :
    (failingBucket (Error.errorString "boom")).IsObjNotFoundErr
        (some (Error.errorString "boom")) = false ∧
    (⟨failingBucket (Error.errorString "boom"), tableCodec⟩ : BucketAlertStore Unit).GetAlertConfig
        () "u1" = (AlertConfigDesc.zero, some (Error.errorString "boom")) ∧
    (⟨failingBucket (Error.errorString "boom"), tableCodec⟩ : BucketAlertStore Unit).SetAlertConfig
        () cfgA = ((), some (Error.errorString "boom")) ∧
    (⟨failingBucket (Error.errorString "boom"), tableCodec⟩ : BucketAlertStore Unit).DeleteAlertConfig
        () "u1" = ((), some (Error.errorString "boom")) :=
  ⟨by decide,
   (store_error_passes_through ⟨failingBucket (Error.errorString "boom"), tableCodec⟩ ()
      (Error.errorString "boom") (by decide)).1 "u1" rfl,
   (store_error_passes_through ⟨failingBucket (Error.errorString "boom"), tableCodec⟩ ()
      (Error.errorString "boom") (by decide)).2.1 cfgA [1] () rfl rfl,
   (store_error_passes_through ⟨failingBucket (Error.errorString "boom"), tableCodec⟩ ()
      (Error.errorString "boom") (by decide)).2.2 "u1" () rfl⟩

/-- Claim C2, refuted as stated.  On the bucket whose object `"u1"` opens but
cannot be read, `Get` does not fail, and yet `GetAlertConfig` returns
`ErrNotFound`: the not-found check is applied to the error of the whole fetch,
the read of the body included. -/
theorem notFound_only_from_get_counterexample :
    (⟨lazyBucket, tableCodec⟩ : BucketAlertStore Unit).GetAlertConfig () "u1"
      = (AlertConfigDesc.zero, some Error.ErrNotFound) ∧
    ¬ ∃ e, lazyBucket.Get () "u1" = .error e := by
  refine ⟨by decide, ?_⟩
  rintro ⟨e, h⟩
  simp [lazyBucket] at h

/-- Claim C2, amended.  When the fetch of the tenant's record fails, at `Get`, at
the read of the body or at decoding, with an error that the store classifies
as not-found, `GetAlertConfig` returns `ErrNotFound` with the zero config.  For
a store whose classifier rejects nil, `GetAlertConfig` returns `ErrNotFound`
only when the fetch failed with an error that is classified as not-found or is
`ErrNotFound` itself. -/
theorem notFound_translation (s : BucketAlertStore σ) (st : σ) (u : String) :
    (∀ e, FetchFails s st u e → s.bucket.IsObjNotFoundErr (some e) = true →
      s.GetAlertConfig st u = (AlertConfigDesc.zero, some Error.ErrNotFound)) ∧
    (s.bucket.IsObjNotFoundErr none = false →
      (s.GetAlertConfig st u).2 = some Error.ErrNotFound →
      ∃ e, FetchFails s st u e ∧
        (s.bucket.IsObjNotFoundErr (some e) = true ∨ e = Error.ErrNotFound)) := by
  refine ⟨?_, ?_⟩
  · intro e hf hc
    rw [GetAlertConfig_eq, getAlertConfig_of_fails hf]
    simp [hc]
  · intro hnil h
    rcases getAlertConfig_cases s st u with ⟨e, hf⟩ | ⟨c, hy⟩
    · refine ⟨e, hf, ?_⟩
      rw [GetAlertConfig_eq, getAlertConfig_of_fails hf] at h
      by_cases hc : s.bucket.IsObjNotFoundErr (some e) = true
      · exact Or.inl hc
      · simp [hc] at h
        exact Or.inr h
    · rw [GetAlertConfig_eq, getAlertConfig_of_yields hy] at h
      simp [hnil] at h

/-- Claim C2, amended, at the bucket whose object `"u1"` cannot be read. -/
theorem notFound_translation_witness :
    FetchFails (⟨lazyBucket, tableCodec⟩ : BucketAlertStore Unit) () "u1" memNotFound ∧
    lazyBucket.IsObjNotFoundErr (some memNotFound) = true ∧
    lazyBucket.IsObjNotFoundErr none = false ∧
    (⟨lazyBucket, tableCodec⟩ : BucketAlertStore Unit).GetAlertConfig () "u1"
      = (AlertConfigDesc.zero, some Error.ErrNotFound) ∧
    ∃ e, FetchFails (⟨lazyBucket, tableCodec⟩ : BucketAlertStore Unit) () "u1" e ∧
      (lazyBucket.IsObjNotFoundErr (some e) = true ∨ e = Error.ErrNotFound) :=
  ⟨Or.inr (Or.inl ⟨⟨.error memNotFound⟩, rfl, rfl⟩), by decide, by decide,
   (notFound_translation ⟨lazyBucket, tableCodec⟩ () "u1").1 memNotFound
      (Or.inr (Or.inl ⟨⟨.error memNotFound⟩, rfl, rfl⟩)) (by decide),
   (notFound_translation ⟨lazyBucket, tableCodec⟩ () "u1").2 (by decide) (by decide)⟩

/-! ## Association lists -/

theorem Assoc.get?_erase {β : Type} (m : List (String × β)) (k u : String) :
    Assoc.get? (Assoc.erase m k) u = if u = k then none else Assoc.get? m u := by
  induction m with
  | nil => simp [Assoc.erase, Assoc.get?]
  | cons p m ih =>
    obtain ⟨k', v⟩ := p
    unfold Assoc.erase at ih ⊢
    by_cases hk : k' = k
    · subst hk
      simp only [List.filter, ne_eq, not_true_eq_false, decide_False]
      rw [ih]
      by_cases hu : u = k'
      · simp [hu]
      · have : ¬ k' = u := fun h => hu h.symm
        simp [Assoc.get?, hu, this]
    · simp only [List.filter, ne_eq, hk, not_false_eq_true, decide_True, Assoc.get?]
      rw [ih]
      by_cases hu : u = k
      · have : ¬ k' = u := fun h => hk (h.trans hu)
        simp [hu, this]
        intro h
        exact absurd h hk
      · simp [hu]

theorem Assoc.get?_set {β : Type} (m : List (String × β)) (k u : String) (v : β) :
    Assoc.get? (Assoc.set m k v) u = if u = k then some v else Assoc.get? m u := by
  unfold Assoc.set
  by_cases hu : u = k
  · simp [Assoc.get?, hu]
  · have : ¬ k = u := fun h => hu h.symm
    simp [Assoc.get?, this, hu, Assoc.get?_erase]

theorem Assoc.length_erase_le {β : Type} (m : List (String × β)) (k : String) :
    (Assoc.erase m k).length ≤ m.length := by
  unfold Assoc.erase
  exact List.length_filter_le _ _

theorem Assoc.keys_erase {β : Type} (m : List (String × β)) (k : String) :
    (Assoc.erase m k).map Prod.fst = (m.map Prod.fst).filter (fun x => decide (x ≠ k)) := by
  unfold Assoc.erase
  rw [List.filter_map]
  rfl

theorem Assoc.nodup_keys_set {β : Type} (m : List (String × β)) (k : String) (v : β)
    (h : (m.map Prod.fst).Nodup) : ((Assoc.set m k v).map Prod.fst).Nodup := by
  unfold Assoc.set
  rw [List.map_cons, List.nodup_cons, Assoc.keys_erase]
  refine ⟨?_, h.filter _⟩
  simp [List.mem_filter]

theorem Assoc.mem_keys_iff {β : Type} (m : List (String × β)) (u : String) :
    u ∈ m.map Prod.fst ↔ Assoc.get? m u ≠ none := by
  induction m with
  | nil => simp [Assoc.get?]
  | cons p m ih =>
    obtain ⟨k, v⟩ := p
    by_cases hk : k = u
    · simp [Assoc.get?, hk]
    · have : ¬ u = k := fun h => hk h.symm
      simp only [List.map_cons, List.mem_cons, this, false_or, Assoc.get?, hk, if_false]
      exact ih

/-! ## The listing loop -/

theorem listCallback_ok {s : BucketAlertStore σ} {st : σ} {k : String}
    (h : (s.getAlertConfig st k).2 = none) (m : CfgMap) :
    s.listCallback st k m
      = (m.set (s.getAlertConfig st k).1.User (s.getAlertConfig st k).1, none) := by
  cases hr : s.getAlertConfig st k with
  | mk c e =>
    rw [hr] at h
    simp only at h
    subst h
    simp [listCallback, hr]

theorem listCallback_err {s : BucketAlertStore σ} {st : σ} {k : String} {e : Error}
    (h : (s.getAlertConfig st k).2 = some e) (m : CfgMap) :
    s.listCallback st k m
      = (m, some (Error.withMessage e ("failed to fetch alertmanager config for user " ++ k))) := by
  cases hr : s.getAlertConfig st k with
  | mk c e' =>
    rw [hr] at h
    simp only at h
    subst h
    simp [listCallback, hr, Wrapf]

theorem runIter_cons_ok {s : BucketAlertStore σ} {st : σ} {k : String}
    (h : (s.getAlertConfig st k).2 = none) (ks : List String) (listErr : Option Error)
    (acc : CfgMap) :
    runIter (s.listCallback st) (k :: ks) listErr acc
      = runIter (s.listCallback st) ks listErr
          (acc.set (s.getAlertConfig st k).1.User (s.getAlertConfig st k).1) := by
  rw [runIter, listCallback_ok h]

theorem runIter_cons_err {s : BucketAlertStore σ} {st : σ} {k : String} {e : Error}
    (h : (s.getAlertConfig st k).2 = some e) (ks : List String) (listErr : Option Error)
    (acc : CfgMap) :
    runIter (s.listCallback st) (k :: ks) listErr acc
      = (acc, some (Error.withMessage e ("failed to fetch alertmanager config for user " ++ k))) := by
  rw [runIter, listCallback_err h]

theorem collect_cons (s : BucketAlertStore σ) (st : σ) (acc : CfgMap) (k : String)
    (ks : List String) :
    collect s st acc (k :: ks)
      = collect s st (acc.set (s.getAlertConfig st k).1.User (s.getAlertConfig st k).1) ks := rfl

theorem runIter_all_ok (s : BucketAlertStore σ) (st : σ) (listErr : Option Error) :
    ∀ (ks : List String) (acc : CfgMap), (∀ k ∈ ks, (s.getAlertConfig st k).2 = none) →
      runIter (s.listCallback st) ks listErr acc = (collect s st acc ks, listErr) := by
  intro ks
  induction ks with
  | nil => intro acc _; rfl
  | cons k ks ih =>
    intro acc h
    rw [runIter_cons_ok (h k (List.mem_cons_self _ _)), collect_cons]
    exact ih _ (fun k' hk' => h k' (List.mem_cons_of_mem _ hk'))

theorem runIter_first_fail (s : BucketAlertStore σ) (st : σ) (listErr : Option Error)
    (k : String) (ks₂ : List String) (e : Error) (hk : (s.getAlertConfig st k).2 = some e) :
    ∀ (ks₁ : List String) (acc : CfgMap), (∀ k' ∈ ks₁, (s.getAlertConfig st k').2 = none) →
      runIter (s.listCallback st) (ks₁ ++ k :: ks₂) listErr acc
        = (collect s st acc ks₁,
           some (Error.withMessage e ("failed to fetch alertmanager config for user " ++ k))) := by
  intro ks₁
  induction ks₁ with
  | nil =>
    intro acc _
    rw [List.nil_append, runIter_cons_err hk]
    rfl
  | cons k' ks₁ ih =>
    intro acc h
    rw [List.cons_append, runIter_cons_ok (h k' (List.mem_cons_self _ _)), collect_cons]
    exact ih _ (fun k'' hk'' => h k'' (List.mem_cons_of_mem _ hk''))

theorem runIter_some_fail (s : BucketAlertStore σ) (st : σ) (listErr : Option Error)
    (k : String) :
    ∀ (ks : List String) (acc : CfgMap), k ∈ ks → (s.getAlertConfig st k).2 ≠ none →
      (runIter (s.listCallback st) ks listErr acc).2 ≠ none := by
  intro ks
  induction ks with
  | nil => intro acc h; simp at h
  | cons k' ks ih =>
    intro acc hmem hk
    cases hk' : (s.getAlertConfig st k').2 with
    | some e =>
      rw [runIter_cons_err hk']
      simp
    | none =>
      rw [runIter_cons_ok hk']
      rcases List.mem_cons.mp hmem with h | h
      · subst h
        exact absurd hk' hk
      · exact ih _ h hk

theorem ListAlertConfigs_eq (s : BucketAlertStore σ) (st : σ) :
    s.ListAlertConfigs st =
      match (runIter (s.listCallback st) (s.bucket.Iter st "").1 (s.bucket.Iter st "").2 []).2 with
      | some err => (none, some err)
      | none => (some (runIter (s.listCallback st) (s.bucket.Iter st "").1
          (s.bucket.Iter st "").2 []).1, none) := by
  unfold ListAlertConfigs
  generalize runIter (s.listCallback st) (s.bucket.Iter st "").1 (s.bucket.Iter st "").2 [] = r
  obtain ⟨m, e⟩ := r
  cases e <;> rfl

theorem collect_append (s : BucketAlertStore σ) (st : σ) (acc : CfgMap) (ks₁ ks₂ : List String) :
    collect s st acc (ks₁ ++ ks₂) = collect s st (collect s st acc ks₁) ks₂ := by
  unfold collect
  rw [List.foldl_append]

theorem collect_length_le (s : BucketAlertStore σ) (st : σ) :
    ∀ (ks : List String) (acc : CfgMap), (collect s st acc ks).length ≤ acc.length + ks.length := by
  intro ks
  induction ks with
  | nil => intro acc; simp [collect]
  | cons k ks ih =>
    intro acc
    rw [collect_cons]
    refine (ih _).trans ?_
    have h := Assoc.length_erase_le acc (s.getAlertConfig st k).1.User
    simp only [CfgMap.set, Assoc.set, List.length_cons]
    omega

theorem collect_nodup (s : BucketAlertStore σ) (st : σ) :
    ∀ (ks : List String) (acc : CfgMap), (acc.map Prod.fst).Nodup →
      ((collect s st acc ks).map Prod.fst).Nodup := by
  intro ks
  induction ks with
  | nil => intro acc h; exact h
  | cons k ks ih =>
    intro acc h
    rw [collect_cons]
    exact ih _ (Assoc.nodup_keys_set _ _ _ h)

theorem collect_get?_of_no_user (s : BucketAlertStore σ) (st : σ) (u : String) :
    ∀ (ks : List String) (acc : CfgMap), (∀ k ∈ ks, (s.getAlertConfig st k).1.User ≠ u) →
      Assoc.get? (collect s st acc ks) u = Assoc.get? acc u := by
  intro ks
  induction ks with
  | nil => intro acc _; rfl
  | cons k ks ih =>
    intro acc h
    rw [collect_cons, ih _ (fun k' hk' => h k' (List.mem_cons_of_mem _ hk'))]
    have hk : ¬ u = (s.getAlertConfig st k).1.User :=
      fun e => h k (List.mem_cons_self _ _) e.symm
    simp [CfgMap.set, Assoc.get?_set, hk]

theorem collect_get?_some (s : BucketAlertStore σ) (st : σ) (u : String) (c : AlertConfigDesc) :
    ∀ (ks : List String) (acc : CfgMap), Assoc.get? (collect s st acc ks) u = some c →
      Assoc.get? acc u = some c ∨ (c.User = u ∧ ∃ k ∈ ks, (s.getAlertConfig st k).1 = c) := by
  intro ks
  induction ks with
  | nil => intro acc h; exact Or.inl h
  | cons k ks ih =>
    intro acc h
    rw [collect_cons] at h
    rcases ih _ h with h' | ⟨hu, k', hk', hc⟩
    · simp only [CfgMap.set, Assoc.get?_set] at h'
      by_cases hk : u = (s.getAlertConfig st k).1.User
      · rw [if_pos hk] at h'
        have hc : (s.getAlertConfig st k).1 = c := Option.some.inj h'
        exact Or.inr ⟨by rw [← hc]; exact hk.symm, k, List.mem_cons_self _ _, hc⟩
      · rw [if_neg hk] at h'
        exact Or.inl h'
    · exact Or.inr ⟨hu, k', List.mem_cons_of_mem _ hk', hc⟩

theorem collect_get?_last (s : BucketAlertStore σ) (st : σ) (acc : CfgMap)
    (ks₁ : List String) (k : String) (ks₂ : List String)
    (h : ∀ k' ∈ ks₂, (s.getAlertConfig st k').1.User ≠ (s.getAlertConfig st k).1.User) :
    Assoc.get? (collect s st acc (ks₁ ++ k :: ks₂)) (s.getAlertConfig st k).1.User
      = some (s.getAlertConfig st k).1 := by
  rw [collect_append, collect_cons, collect_get?_of_no_user s st _ ks₂ _ h]
  simp [CfgMap.set, Assoc.get?_set]

/-! ## Error handling of the listing -/

/-- Claim C4, refuted as stated.  A bucket lists the key `"u1"` and fails the
fetch of its object.  With the error `"boom"`, which is not a not-found error,
`ListAlertConfigs` does not return `"boom"` but `"boom"` wrapped by
`errors.Wrapf`; with the bucket's not-found error, it does not return
`ErrNotFound` but the wrapped not-found error. -/
theorem list_errors_unchanged_counterexample :
    ((failingBucket (Error.errorString "boom")).Get () "u1" = .error (Error.errorString "boom") ∧
      (failingBucket (Error.errorString "boom")).IsObjNotFoundErr
        (some (Error.errorString "boom")) = false ∧
      (⟨failingBucket (Error.errorString "boom"), tableCodec⟩ : BucketAlertStore Unit).ListAlertConfigs ()
        = (none, some (Error.withMessage (Error.errorString "boom")
            "failed to fetch alertmanager config for user u1")) ∧
      (⟨failingBucket (Error.errorString "boom"), tableCodec⟩ : BucketAlertStore Unit).ListAlertConfigs ()
        ≠ (none, some (Error.errorString "boom"))) ∧
    ((failingBucket memNotFound).Get () "u1" = .error memNotFound ∧
      (failingBucket memNotFound).IsObjNotFoundErr (some memNotFound) = true ∧
      (⟨failingBucket memNotFound, tableCodec⟩ : BucketAlertStore Unit).ListAlertConfigs ()
        = (none, some (Error.withMessage memNotFound
            "failed to fetch alertmanager config for user u1")) ∧
      (⟨failingBucket memNotFound, tableCodec⟩ : BucketAlertStore Unit).ListAlertConfigs ()
        ≠ (none, some Error.ErrNotFound)) := by
  refine ⟨⟨rfl, by decide, by decide, by decide⟩, ⟨rfl, by decide, by decide, by decide⟩⟩

/-- Claim C4, amended.  An error with which the key listing itself ends (every
listed object having been fetched) is returned unchanged, with a nil map.  An
error of the fetch of one listed object, the fetches before it having
succeeded, is returned wrapped by `errors.Wrapf` under the message
`failed to fetch alertmanager config for user <key>`, with a nil map; a
not-found error is wrapped like any other and is not turned into
`ErrNotFound`. -/
theorem list_error_propagation (s : BucketAlertStore σ) (st : σ) :
    (∀ ks e, s.bucket.Iter st "" = (ks, some e) →
      (∀ k ∈ ks, ∃ c, FetchYields s st k c) →
      s.ListAlertConfigs st = (none, some e)) ∧
    (∀ ks₁ k ks₂ listErr e, s.bucket.Iter st "" = (ks₁ ++ k :: ks₂, listErr) →
      (∀ k' ∈ ks₁, ∃ c, FetchYields s st k' c) → FetchFails s st k e →
      s.ListAlertConfigs st = (none, some (Error.withMessage e
        ("failed to fetch alertmanager config for user " ++ k))) ∧
      (s.ListAlertConfigs st).2 ≠ some Error.ErrNotFound) := by
  have hok : ∀ ks : List String, (∀ k ∈ ks, ∃ c, FetchYields s st k c) →
      ∀ k ∈ ks, (s.getAlertConfig st k).2 = none := by
    intro ks h k hk
    obtain ⟨c, hc⟩ := h k hk
    rw [getAlertConfig_of_yields hc]
  refine ⟨?_, ?_⟩
  · intro ks e hiter hall
    rw [ListAlertConfigs_eq, hiter]
    simp only
    rw [runIter_all_ok s st (some e) ks [] (hok ks hall)]
  · intro ks₁ k ks₂ listErr e hiter hall hf
    have hk : (s.getAlertConfig st k).2 = some e := by rw [getAlertConfig_of_fails hf]
    have hres : s.ListAlertConfigs st = (none, some (Error.withMessage e
        ("failed to fetch alertmanager config for user " ++ k))) := by
      rw [ListAlertConfigs_eq, hiter]
      simp only
      rw [runIter_first_fail s st listErr k ks₂ e hk ks₁ [] (hok ks₁ hall)]
    refine ⟨hres, ?_⟩
    rw [hres]
    simp

/-- Claim C4, amended: on the bucket whose listing breaks after `"u1"`, and on
the in-memory bucket whose record under `"x"` does not decode while the record
listed before it does. -/
theorem list_error_propagation_witness :
    (brokenListBucket.Iter () "" = (["u1"], some (Error.errorString "list: timeout")) ∧
      (⟨brokenListBucket, tableCodec⟩ : BucketAlertStore Unit).ListAlertConfigs ()
        = (none, some (Error.errorString "list: timeout"))) ∧
    ((memBucket []).Iter [("u1", [1]), ("x", [9])] "" = (["u1"] ++ "x" :: [], none) ∧
      FetchFails (memStore []) [("u1", [1]), ("x", [9])] "x"
        (Error.errorString "unmarshal: bad payload") ∧
      (memStore []).ListAlertConfigs [("u1", [1]), ("x", [9])]
        = (none, some (Error.withMessage (Error.errorString "unmarshal: bad payload")
            ("failed to fetch alertmanager config for user " ++ "x"))) ∧
      ((memStore []).ListAlertConfigs [("u1", [1]), ("x", [9])]).2 ≠ some Error.ErrNotFound) :=
  ⟨⟨rfl,
    (list_error_propagation (⟨brokenListBucket, tableCodec⟩ : BucketAlertStore Unit) ()).1
      ["u1"] (Error.errorString "list: timeout") rfl
      (fun k hk => ⟨cfgA, ⟨.ok [1]⟩, [1], by
        rw [List.mem_singleton.mp hk]; exact ⟨rfl, rfl, rfl⟩⟩)⟩,
   ⟨by decide, Or.inr (Or.inr ⟨⟨.ok [9]⟩, [9], rfl, rfl, rfl⟩),
    (list_error_propagation (memStore []) [("u1", [1]), ("x", [9])]).2 ["u1"] "x" [] none
      (Error.errorString "unmarshal: bad payload") (by decide)
      (fun k' hk' => ⟨cfgA, ⟨.ok [1]⟩, [1], by
        rw [List.mem_singleton.mp hk']; exact ⟨rfl, rfl, rfl⟩⟩)
      (Or.inr (Or.inr ⟨⟨.ok [9]⟩, [9], rfl, rfl, rfl⟩))⟩⟩

/-! ## The listing is all-or-nothing and keyed by the decoded `User` -/

/-- Claim C10.  `ListAlertConfigs` returns a nil map exactly when it returns an
error.  If the fetch (get, read or decode) of any listed key fails, the map
is nil and the error is not.  When the listing ends without error and every
fetch succeeds, the map is not nil, it has at most as many entries as keys
were listed and no key twice, each entry sits under the `User` of its decoded
config and comes from a listed object, and of the listed objects that decode to
the same `User` the one listed last is the entry. -/
theorem list_all_or_nothing (s : BucketAlertStore σ) (st : σ) :
    ((s.ListAlertConfigs st).1 = none ↔ (s.ListAlertConfigs st).2 ≠ none) ∧
    (∀ k e, k ∈ (s.bucket.Iter st "").1 → FetchFails s st k e →
      (s.ListAlertConfigs st).1 = none ∧ (s.ListAlertConfigs st).2 ≠ none) ∧
    ((s.bucket.Iter st "").2 = none →
      (∀ k ∈ (s.bucket.Iter st "").1, ∃ c, FetchYields s st k c) →
      ∃ m : CfgMap, s.ListAlertConfigs st = (some m, none) ∧
        m.len ≤ (s.bucket.Iter st "").1.length ∧ m.keys.Nodup ∧
        (∀ u c, m.get? u = some c →
          c.User = u ∧ ∃ k ∈ (s.bucket.Iter st "").1, FetchYields s st k c) ∧
        (∀ ks₁ k ks₂ c, (s.bucket.Iter st "").1 = ks₁ ++ k :: ks₂ → FetchYields s st k c →
          (∀ k' ∈ ks₂, ∀ c', FetchYields s st k' c' → c'.User ≠ c.User) →
          m.get? c.User = some c)) := by
  have hshape : (s.ListAlertConfigs st).1 = none ↔ (s.ListAlertConfigs st).2 ≠ none := by
    rw [ListAlertConfigs_eq]
    cases (runIter (s.listCallback st) (s.bucket.Iter st "").1 (s.bucket.Iter st "").2 []).2
      <;> simp
  refine ⟨hshape, ?_, ?_⟩
  · intro k e hk hf
    have hne : (s.ListAlertConfigs st).2 ≠ none := by
      have h := runIter_some_fail s st (s.bucket.Iter st "").2 k (s.bucket.Iter st "").1 [] hk
        (by rw [getAlertConfig_of_fails hf]; simp)
      rw [ListAlertConfigs_eq]
      cases hr : (runIter (s.listCallback st) (s.bucket.Iter st "").1
        (s.bucket.Iter st "").2 []).2 with
      | none => exact absurd hr h
      | some err => simp
    exact ⟨hshape.mpr hne, hne⟩
  · intro hiter hall
    have hok : ∀ k ∈ (s.bucket.Iter st "").1, (s.getAlertConfig st k).2 = none := by
      intro k hk
      obtain ⟨c, hc⟩ := hall k hk
      rw [getAlertConfig_of_yields hc]
    refine ⟨collect s st [] (s.bucket.Iter st "").1, ?_, ?_, ?_, ?_, ?_⟩
    · rw [ListAlertConfigs_eq, runIter_all_ok s st _ _ [] hok, hiter]
    · have h := collect_length_le s st (s.bucket.Iter st "").1 []
      simpa using h
    · exact collect_nodup s st _ [] List.nodup_nil
    · intro u c hget
      rcases collect_get?_some s st u c _ [] hget with h | ⟨hu, k, hk, hc⟩
      · simp [Assoc.get?] at h
      · refine ⟨hu, k, hk, ?_⟩
        rw [← hc]
        exact fetchYields_of_getAlertConfig (hok k hk)
    · intro ks₁ k ks₂ c hks hy hlater
      have hc : (s.getAlertConfig st k).1 = c := by rw [getAlertConfig_of_yields hy]
      have h := collect_get?_last s st [] ks₁ k ks₂ (by
        intro k' hk'
        have hmem : k' ∈ (s.bucket.Iter st "").1 := by
          rw [hks]
          exact List.mem_append_right _ (List.mem_cons_of_mem _ hk')
        rw [hc]
        exact hlater k' hk' _ (fetchYields_of_getAlertConfig (hok k' hmem)))
      rw [hc, ← hks] at h
      exact h

/-- Claim C10 on the in-memory bucket.  With an object that does not decode the
listing fails whole; with the objects under `"u1"` and `"x"` both decoding to
tenant `u1`, the entry of `u1` is the one listed last. -/
theorem list_all_or_nothing_witness :
    ("x" ∈ ((memStore []).bucket.Iter [("u1", [1]), ("x", [9])] "").1 ∧
      FetchFails (memStore []) [("u1", [1]), ("x", [9])] "x"
        (Error.errorString "unmarshal: bad payload") ∧
      ((memStore []).ListAlertConfigs [("u1", [1]), ("x", [9])]).1 = none ∧
      ((memStore []).ListAlertConfigs [("u1", [1]), ("x", [9])]).2 ≠ none) ∧
    (((memStore []).bucket.Iter [("u1", [1]), ("u2", [3]), ("x", [2])] "").2 = none ∧
      ∃ m : CfgMap, (memStore []).ListAlertConfigs [("u1", [1]), ("u2", [3]), ("x", [2])]
          = (some m, none) ∧
        m.len ≤ ((memStore []).bucket.Iter [("u1", [1]), ("u2", [3]), ("x", [2])] "").1.length ∧
        m.keys.Nodup ∧
        (∀ u c, m.get? u = some c → c.User = u ∧
          ∃ k ∈ ((memStore []).bucket.Iter [("u1", [1]), ("u2", [3]), ("x", [2])] "").1,
            FetchYields (memStore []) [("u1", [1]), ("u2", [3]), ("x", [2])] k c) ∧
        (∀ ks₁ k ks₂ c,
          ((memStore []).bucket.Iter [("u1", [1]), ("u2", [3]), ("x", [2])] "").1
            = ks₁ ++ k :: ks₂ →
          FetchYields (memStore []) [("u1", [1]), ("u2", [3]), ("x", [2])] k c →
          (∀ k' ∈ ks₂, ∀ c',
            FetchYields (memStore []) [("u1", [1]), ("u2", [3]), ("x", [2])] k' c' →
            c'.User ≠ c.User) →
          m.get? c.User = some c)) :=
  ⟨⟨by decide, Or.inr (Or.inr ⟨⟨.ok [9]⟩, [9], rfl, rfl, rfl⟩),
    (list_all_or_nothing (memStore []) [("u1", [1]), ("x", [9])]).2.1 "x"
      (Error.errorString "unmarshal: bad payload") (by decide)
      (Or.inr (Or.inr ⟨⟨.ok [9]⟩, [9], rfl, rfl, rfl⟩))⟩,
   ⟨by decide,
    (list_all_or_nothing (memStore []) [("u1", [1]), ("u2", [3]), ("x", [2])]).2.2 (by decide)
      (by
        intro k hk
        have hk' : k = "u1" ∨ k = "u2" ∨ k = "x" := by
          have h : ((memStore []).bucket.Iter [("u1", [1]), ("u2", [3]), ("x", [2])] "").1
              = ["u1", "u2", "x"] := by decide
          rw [h] at hk
          simpa using hk
        rcases hk' with h | h | h
        · exact ⟨cfgA, ⟨.ok [1]⟩, [1], by rw [h]; exact ⟨rfl, rfl, rfl⟩⟩
        · exact ⟨cfgB, ⟨.ok [3]⟩, [3], by rw [h]; exact ⟨rfl, rfl, rfl⟩⟩
        · exact ⟨cfgA2, ⟨.ok [2]⟩, [2], by rw [h]; exact ⟨rfl, rfl, rfl⟩⟩)⟩⟩

/-! ## The in-memory bucket is a key-value store -/

theorem memBucket_laws (denied : List String) :
    KeyValueLaws (memBucket denied) (fun st k => Assoc.get? st k) where
  notFound_nil := by simp [memBucket]
  get_some := by
    intro st k b h
    simp [memBucket, h]
  get_none := by
    intro st k h
    exact ⟨memNotFound, by simp [memBucket, h], by simp [memBucket]⟩
  upload_ok := by
    intro st k b st' h k'
    by_cases hd : k ∈ denied
    · simp [memBucket, hd] at h
    · simp only [memBucket, hd, if_false, Prod.mk.injEq, and_true] at h
      subst h
      exact Assoc.get?_set st k k' b
  upload_err := by
    intro st k b st' e h
    by_cases hd : k ∈ denied
    · simp only [memBucket, hd, if_true, Prod.mk.injEq] at h
      rw [h.1]
    · simp [memBucket, hd] at h
  delete_ok := by
    intro st k st' h k'
    cases hg : Assoc.get? st k with
    | none => simp [memBucket, hg] at h
    | some b =>
      by_cases hd : k ∈ denied
      · simp [memBucket, hg, hd] at h
      · simp only [memBucket, hg, hd, if_false, Prod.mk.injEq, and_true] at h
        subst h
        exact Assoc.get?_erase st k k'
  delete_err := by
    intro st k st' e h
    cases hg : Assoc.get? st k with
    | none =>
      simp only [memBucket, hg, Prod.mk.injEq] at h
      rw [h.1]
    | some b =>
      by_cases hd : k ∈ denied
      · simp only [memBucket, hg, hd, if_true, Prod.mk.injEq] at h
        rw [h.1]
      · simp [memBucket, hg, hd] at h
  delete_notFound := by
    intro st k st' e h hc
    cases hg : Assoc.get? st k with
    | none => rfl
    | some b =>
      by_cases hd : k ∈ denied
      · simp only [memBucket, hg, hd, if_true, Prod.mk.injEq, Option.some.injEq] at h
        have he : e = memNotFound := by simpa [memBucket] using hc
        rw [he] at h
        exact absurd h.2 (by decide)
      · simp [memBucket, hg, hd] at h
  delete_absent := by
    intro st k h
    right
    simp [memBucket, h]
  iter_ok := by
    intro st ks h
    simp only [memBucket, Prod.mk.injEq, and_true] at h
    subst h
    refine ⟨List.nodup_dedup _, fun k => ?_⟩
    rw [List.mem_dedup]
    exact Assoc.mem_keys_iff st k

/-! ## Reads on a key-value store -/

section Laws

variable {s : BucketAlertStore σ} {objects : σ → String → Option Bytes}

theorem getAlertConfig_of_object (hl : KeyValueLaws s.bucket objects) {st : σ} {k : String}
    {b : Bytes} (h : objects st k = some b) :
    s.getAlertConfig st k =
      match s.codec.Unmarshal b with
      | .error e => (AlertConfigDesc.zero, some e)
      | .ok c => (c, none) := by
  simp only [getAlertConfig, hl.get_some st k b h]

theorem GetAlertConfig_of_decodes (hl : KeyValueLaws s.bucket objects) {st : σ} {k : String}
    {b : Bytes} {c : AlertConfigDesc} (h : objects st k = some b)
    (hc : s.codec.Unmarshal b = .ok c) : s.GetAlertConfig st k = (c, none) := by
  rw [GetAlertConfig_eq, getAlertConfig_of_object hl h, hc]
  simp [hl.notFound_nil]

theorem GetAlertConfig_of_absent (hl : KeyValueLaws s.bucket objects) {st : σ} {k : String}
    (h : objects st k = none) :
    s.GetAlertConfig st k = (AlertConfigDesc.zero, some Error.ErrNotFound) := by
  obtain ⟨e, hg, hc⟩ := hl.get_none st k h
  rw [GetAlertConfig_eq, getAlertConfig_of_fails (Or.inl hg)]
  simp [hc]

theorem GetAlertConfig_congr (hl : KeyValueLaws s.bucket objects) {st₁ st₂ : σ} {k : String}
    (h : objects st₁ k = objects st₂ k) : s.GetAlertConfig st₁ k = s.GetAlertConfig st₂ k := by
  cases h₂ : objects st₂ k with
  | none =>
    rw [GetAlertConfig_of_absent hl h₂, GetAlertConfig_of_absent hl (h.trans h₂)]
  | some b =>
    rw [GetAlertConfig_eq, GetAlertConfig_eq, getAlertConfig_of_object hl h₂,
      getAlertConfig_of_object hl (h.trans h₂)]

/-! ## Writes on a key-value store -/

theorem SetAlertConfig_objects (hl : KeyValueLaws s.bucket objects) (st : σ)
    (cfg : AlertConfigDesc) (k : String) :
    objects (s.SetAlertConfig st cfg).1 k = objects st k ∨
      (k = cfg.User ∧ (s.SetAlertConfig st cfg).2 = none ∧
        ∃ b, s.codec.Marshal cfg = .ok b ∧ objects (s.SetAlertConfig st cfg).1 k = some b) := by
  unfold SetAlertConfig
  cases hm : s.codec.Marshal cfg with
  | error e => exact Or.inl rfl
  | ok b =>
    simp only
    cases hu : s.bucket.Upload st cfg.User b with
    | mk st' r =>
      cases r with
      | some e => exact Or.inl (by rw [hl.upload_err _ _ _ _ _ hu])
      | none =>
        have h := hl.upload_ok _ _ _ _ hu k
        by_cases hk : k = cfg.User
        · rw [if_pos hk] at h
          exact Or.inr ⟨hk, rfl, b, rfl, h⟩
        · rw [if_neg hk] at h
          exact Or.inl h

theorem DeleteAlertConfig_objects (hl : KeyValueLaws s.bucket objects) (st : σ)
    (u : String) (k : String) :
    objects (s.DeleteAlertConfig st u).1 k = objects st k ∨
      (k = u ∧ objects (s.DeleteAlertConfig st u).1 k = none) := by
  have hst : (s.DeleteAlertConfig st u).1 = (s.bucket.Delete st u).1 := by
    rw [DeleteAlertConfig_eq]
    split <;> rfl
  rw [hst]
  cases hd : s.bucket.Delete st u with
  | mk st' r =>
    cases r with
    | some e => exact Or.inl (by rw [hl.delete_err _ _ _ _ hd])
    | none =>
      have h := hl.delete_ok _ _ _ hd k
      by_cases hk : k = u
      · rw [if_pos hk] at h
        exact Or.inr ⟨hk, h⟩
      · rw [if_neg hk] at h
        exact Or.inl h

theorem DeleteAlertConfig_absent_of_nil (hl : KeyValueLaws s.bucket objects) {st st' : σ}
    {u : String} (h : s.DeleteAlertConfig st u = (st', none)) : objects st' u = none := by
  rw [DeleteAlertConfig_eq] at h
  cases hd : s.bucket.Delete st u with
  | mk st₁ r =>
    rw [hd] at h
    cases r with
    | none =>
      have hst : st₁ = st' := by
        split at h <;> exact (Prod.mk.inj h).1
      rw [← hst, hl.delete_ok _ _ _ hd u, if_pos rfl]
    | some e =>
      by_cases hc : s.bucket.IsObjNotFoundErr (some e) = true
      · simp only [hc, if_true, Prod.mk.injEq, and_true] at h
        rw [← h, hl.delete_err _ _ _ _ hd]
        exact hl.delete_notFound _ _ _ _ hd hc
      · simp [hc] at h

theorem DeleteAlertConfig_fst (s : BucketAlertStore σ) (st : σ) (u : String) :
    (s.DeleteAlertConfig st u).1 = (s.bucket.Delete st u).1 := by
  rw [DeleteAlertConfig_eq]
  split <;> rfl

theorem DeleteAlertConfig_snd (s : BucketAlertStore σ) (st : σ) (u : String) :
    (s.DeleteAlertConfig st u).2 =
      if s.bucket.IsObjNotFoundErr (s.bucket.Delete st u).2 then none
      else (s.bucket.Delete st u).2 := by
  rw [DeleteAlertConfig_eq]
  split <;> rfl

theorem Call.exec_keyedByUser (hl : KeyValueLaws s.bucket objects) (hrt : s.codec.RoundTrip)
    (st : σ) (c : Call) (h : KeyedByUser s.codec objects st) :
    KeyedByUser s.codec objects (c.exec s st) := by
  cases c with
  | ListAlertConfigs => exact h
  | GetAlertConfig u => exact h
  | SetAlertConfig cfg =>
    intro k b hk
    simp only [Call.exec] at hk
    rcases SetAlertConfig_objects hl st cfg k with h' | ⟨hu, _, b', hm, hb'⟩
    · exact h k b (h' ▸ hk)
    · rw [hb'] at hk
      have hbb : b' = b := Option.some.inj hk
      exact ⟨cfg, by rw [← hbb]; exact hrt cfg b' hm, hu.symm⟩
  | DeleteAlertConfig u =>
    intro k b hk
    simp only [Call.exec] at hk
    rcases DeleteAlertConfig_objects hl st u k with h' | ⟨_, hn⟩
    · exact h k b (h' ▸ hk)
    · rw [hn] at hk
      exact absurd hk (by simp)

theorem execAll_keyedByUser (hl : KeyValueLaws s.bucket objects) (hrt : s.codec.RoundTrip) :
    ∀ (calls : List Call) (st : σ), KeyedByUser s.codec objects st →
      KeyedByUser s.codec objects (execAll s st calls) := by
  intro calls
  induction calls with
  | nil => intro st h; exact h
  | cons c cs ih =>
    intro st h
    exact ih _ (Call.exec_keyedByUser hl hrt st c h)

end Laws

theorem tableCodec_roundTrip : tableCodec.RoundTrip := by
  intro c b h
  simp only [tableCodec] at h ⊢
  by_cases h1 : c = cfgA
  · rw [if_pos h1] at h
    cases h
    rw [h1]
    rfl
  · rw [if_neg h1] at h
    by_cases h2 : c = cfgA2
    · rw [if_pos h2] at h
      cases h
      rw [h2]
      rfl
    · rw [if_neg h2] at h
      by_cases h3 : c = cfgB
      · rw [if_pos h3] at h
        cases h
        rw [h3]
        rfl
      · rw [if_neg h3] at h
        cases h

theorem memBucket_deleteDetermined (denied : List String) :
    DeleteDetermined (memBucket denied) (fun st k => Assoc.get? st k) := by
  intro st₁ st₂ k h
  have hk : Assoc.get? st₁ k = Assoc.get? st₂ k := congrFun h k
  simp only [memBucket, hk]
  cases Assoc.get? st₂ k with
  | none => rfl
  | some b => by_cases hd : k ∈ denied <;> simp [hd]

/-! ## Overwrite-on-set and remove-on-delete -/

/-- Claim C1.  On a key-value store, for every store state (a record of the
tenant being present or not) and every config `cfg` that `Marshal` encodes to
`b` and `Unmarshal` decodes back from `b`: if `SetAlertConfig cfg` returns no
error, then `GetAlertConfig cfg.User` on the state it leaves returns exactly
`cfg` and no error. -/
theorem set_then_get (s : BucketAlertStore σ) (objects : σ → String → Option Bytes)
    (hl : KeyValueLaws s.bucket objects) (st st' : σ) (cfg : AlertConfigDesc) (b : Bytes)
    (hm : s.codec.Marshal cfg = .ok b) (hrt : s.codec.Unmarshal b = .ok cfg)
    (hset : s.SetAlertConfig st cfg = (st', none)) :
    s.GetAlertConfig st' cfg.User = (cfg, none) := by
  simp only [SetAlertConfig, hm] at hset
  have h := hl.upload_ok _ _ _ _ hset cfg.User
  rw [if_pos rfl] at h
  exact GetAlertConfig_of_decodes hl h hrt

/-- Claim C1 on the in-memory bucket: tenant `u1` has a record, a second config
is set over it and read back. -/
theorem set_then_get_witness :
    KeyValueLaws (memStore []).bucket (fun st k => Assoc.get? st k) ∧
    (memStore []).codec.Marshal cfgA2 = .ok [2] ∧
    (memStore []).codec.Unmarshal [2] = .ok cfgA2 ∧
    (memStore []).SetAlertConfig [("u1", [1])] cfgA2 = ([("u1", [2])], none) ∧
    (memStore []).GetAlertConfig [("u1", [2])] cfgA2.User = (cfgA2, none) :=
  ⟨memBucket_laws [], rfl, rfl, by decide,
   set_then_get (memStore []) (fun st k => Assoc.get? st k) (memBucket_laws [])
     [("u1", [1])] [("u1", [2])] cfgA2 [2] rfl rfl (by decide)⟩

/-- Claim C5.  On a key-value store, for every store state and tenant `u`: if
`DeleteAlertConfig u` returns no error, the state it leaves holds no object
under `u`, and `GetAlertConfig u` on that state returns `ErrNotFound` (with the
zero config). -/
theorem delete_then_get (s : BucketAlertStore σ) (objects : σ → String → Option Bytes)
    (hl : KeyValueLaws s.bucket objects) (st st' : σ) (u : String)
    (hdel : s.DeleteAlertConfig st u = (st', none)) :
    objects st' u = none ∧
    s.GetAlertConfig st' u = (AlertConfigDesc.zero, some Error.ErrNotFound) := by
  have h := DeleteAlertConfig_absent_of_nil hl hdel
  exact ⟨h, GetAlertConfig_of_absent hl h⟩

/-- Claim C5 on the in-memory bucket: the record of `u1` is deleted. -/
theorem delete_then_get_witness :
    KeyValueLaws (memStore []).bucket (fun st k => Assoc.get? st k) ∧
    (memStore []).DeleteAlertConfig [("u1", [1]), ("u2", [3])] "u1" = ([("u2", [3])], none) ∧
    Assoc.get? [("u2", ([3] : Bytes))] "u1" = none ∧
    (memStore []).GetAlertConfig [("u2", [3])] "u1"
      = (AlertConfigDesc.zero, some Error.ErrNotFound) :=
  ⟨memBucket_laws [], by decide,
   delete_then_get (memStore []) (fun st k => Assoc.get? st k) (memBucket_laws [])
     [("u1", [1]), ("u2", [3])] [("u2", [3])] "u1" (by decide)⟩

/-- Claim C6.  On a key-value store: `SetAlertConfig cfg` leaves the object of
every tenant `v` other than `cfg.User` as it was, and `DeleteAlertConfig u` that
of every tenant `v` other than `u`, so that `GetAlertConfig v` returns the same
before and after; this holds whether the call succeeds or fails.  A call of
`GetAlertConfig` or `ListAlertConfigs` leaves the store state as it was. -/
theorem tenant_independence (s : BucketAlertStore σ) (objects : σ → String → Option Bytes)
    (hl : KeyValueLaws s.bucket objects) (st : σ) :
    (∀ cfg v, v ≠ cfg.User →
      objects (s.SetAlertConfig st cfg).1 v = objects st v ∧
      s.GetAlertConfig (s.SetAlertConfig st cfg).1 v = s.GetAlertConfig st v) ∧
    (∀ u v, v ≠ u →
      objects (s.DeleteAlertConfig st u).1 v = objects st v ∧
      s.GetAlertConfig (s.DeleteAlertConfig st u).1 v = s.GetAlertConfig st v) ∧
    (∀ u, (Call.GetAlertConfig u).exec s st = st) ∧
    Call.ListAlertConfigs.exec s st = st := by
  refine ⟨?_, ?_, fun _ => rfl, rfl⟩
  · intro cfg v hv
    have h : objects (s.SetAlertConfig st cfg).1 v = objects st v := by
      rcases SetAlertConfig_objects hl st cfg v with h | ⟨hk, _⟩
      · exact h
      · exact absurd hk hv
    exact ⟨h, GetAlertConfig_congr hl h⟩
  · intro u v hv
    have h : objects (s.DeleteAlertConfig st u).1 v = objects st v := by
      rcases DeleteAlertConfig_objects hl st u v with h | ⟨hk, _⟩
      · exact h
      · exact absurd hk hv
    exact ⟨h, GetAlertConfig_congr hl h⟩

/-- Claim C6 on the in-memory bucket: setting and deleting the record of `u1`
leaves the record of `u2` readable as before. -/
theorem tenant_independence_witness :
    KeyValueLaws (memStore []).bucket (fun st k => Assoc.get? st k) ∧
    "u2" ≠ cfgA2.User ∧
    (Assoc.get? ((memStore []).SetAlertConfig [("u1", [1]), ("u2", [3])] cfgA2).1 "u2"
        = Assoc.get? [("u1", ([1] : Bytes)), ("u2", [3])] "u2" ∧
      (memStore []).GetAlertConfig
          ((memStore []).SetAlertConfig [("u1", [1]), ("u2", [3])] cfgA2).1 "u2"
        = (memStore []).GetAlertConfig [("u1", [1]), ("u2", [3])] "u2") ∧
    (Assoc.get? ((memStore []).DeleteAlertConfig [("u1", [1]), ("u2", [3])] "u1").1 "u2"
        = Assoc.get? [("u1", ([1] : Bytes)), ("u2", [3])] "u2" ∧
      (memStore []).GetAlertConfig
          ((memStore []).DeleteAlertConfig [("u1", [1]), ("u2", [3])] "u1").1 "u2"
        = (memStore []).GetAlertConfig [("u1", [1]), ("u2", [3])] "u2") :=
  ⟨memBucket_laws [], by decide,
   (tenant_independence (memStore []) (fun st k => Assoc.get? st k) (memBucket_laws [])
     [("u1", [1]), ("u2", [3])]).1 cfgA2 "u2" (by decide),
   (tenant_independence (memStore []) (fun st k => Assoc.get? st k) (memBucket_laws [])
     [("u1", [1]), ("u2", [3])]).2.1 "u1" "u2" (by decide)⟩

/-! ## One record per tenant key -/

/-- Claim C7.  On a key-value store and with a codec that decodes what it
encodes: starting from a store state without objects, after any sequence of
calls of the public methods, succeeding or failing, every key that holds an
object holds one that decodes to a config whose `User` is that key; and a
listing of the root that ends without error names each such key exactly
once. -/
theorem one_record_per_tenant (s : BucketAlertStore σ) (objects : σ → String → Option Bytes)
    (hl : KeyValueLaws s.bucket objects) (hrt : s.codec.RoundTrip)
    (st₀ : σ) (h₀ : ∀ k, objects st₀ k = none) (calls : List Call) :
    (∀ k b, objects (execAll s st₀ calls) k = some b →
      ∃ c, s.codec.Unmarshal b = .ok c ∧ c.User = k) ∧
    (∀ ks, s.bucket.Iter (execAll s st₀ calls) "" = (ks, none) →
      ∀ k, objects (execAll s st₀ calls) k ≠ none → ks.count k = 1) := by
  refine ⟨?_, ?_⟩
  · have h : KeyedByUser s.codec objects st₀ := by
      intro k b hk
      rw [h₀ k] at hk
      exact absurd hk (by simp)
    exact execAll_keyedByUser hl hrt calls st₀ h
  · intro ks hks k hk
    obtain ⟨hnd, hmem⟩ := hl.iter_ok _ _ hks
    exact List.count_eq_one_of_mem hnd ((hmem k).mpr hk)

/-- Claim C7 on the in-memory bucket that refuses writes to `u2`: two records
of `u1` are set in turn, a set and a delete for `u2` fail, a config is refused
by the codec, and an absent tenant is deleted. -/
theorem one_record_per_tenant_witness :
    KeyValueLaws (memStore ["u2"]).bucket (fun st k => Assoc.get? st k) ∧
    (memStore ["u2"]).codec.RoundTrip ∧
    (∀ k, Assoc.get? ([] : List (String × Bytes)) k = none) ∧
    execAll (memStore ["u2"]) []
      [.SetAlertConfig cfgA, .SetAlertConfig cfgB, .SetAlertConfig cfgA2,
       .DeleteAlertConfig "u2", .SetAlertConfig ⟨"u3", "", []⟩, .DeleteAlertConfig "u4"]
      = [("u1", [2])] ∧
    ((∀ k b, Assoc.get? (execAll (memStore ["u2"]) []
        [.SetAlertConfig cfgA, .SetAlertConfig cfgB, .SetAlertConfig cfgA2,
         .DeleteAlertConfig "u2", .SetAlertConfig ⟨"u3", "", []⟩, .DeleteAlertConfig "u4"])
        k = some b →
      ∃ c, (memStore ["u2"]).codec.Unmarshal b = .ok c ∧ c.User = k) ∧
    (∀ ks, (memStore ["u2"]).bucket.Iter (execAll (memStore ["u2"]) []
        [.SetAlertConfig cfgA, .SetAlertConfig cfgB, .SetAlertConfig cfgA2,
         .DeleteAlertConfig "u2", .SetAlertConfig ⟨"u3", "", []⟩, .DeleteAlertConfig "u4"])
        "" = (ks, none) →
      ∀ k, Assoc.get? (execAll (memStore ["u2"]) []
        [.SetAlertConfig cfgA, .SetAlertConfig cfgB, .SetAlertConfig cfgA2,
         .DeleteAlertConfig "u2", .SetAlertConfig ⟨"u3", "", []⟩, .DeleteAlertConfig "u4"])
        k ≠ none → ks.count k = 1)) :=
  ⟨memBucket_laws ["u2"], tableCodec_roundTrip, fun _ => rfl, by decide,
   one_record_per_tenant (memStore ["u2"]) (fun st k => Assoc.get? st k)
     (memBucket_laws ["u2"]) tableCodec_roundTrip [] (fun _ => rfl)
     [.SetAlertConfig cfgA, .SetAlertConfig cfgB, .SetAlertConfig cfgA2,
      .DeleteAlertConfig "u2", .SetAlertConfig ⟨"u3", "", []⟩, .DeleteAlertConfig "u4"]⟩

/-! ## The listing agrees with the single reads -/

theorem getAlertConfig_of_get {s : BucketAlertStore σ} {st : σ} {k : String} {b : Bytes}
    {c : AlertConfigDesc} (hg : s.bucket.Get st k = .ok ⟨.ok b⟩)
    (hc : s.codec.Unmarshal b = .ok c) : s.getAlertConfig st k = (c, none) :=
  getAlertConfig_of_yields ⟨⟨.ok b⟩, b, hg, rfl, hc⟩

theorem collect_get?_of_keyed (s : BucketAlertStore σ) (st : σ) (k : String) :
    ∀ (ks : List String) (acc : CfgMap),
      (∀ k' ∈ ks, (s.getAlertConfig st k').1.User = k') → k ∈ ks →
      Assoc.get? (collect s st acc ks) k = some (s.getAlertConfig st k).1 := by
  intro ks
  induction ks with
  | nil => intro acc _ hk; simp at hk
  | cons k₀ ks ih =>
    intro acc hu hk
    have hu' : ∀ k' ∈ ks, (s.getAlertConfig st k').1.User = k' :=
      fun k' hk' => hu k' (List.mem_cons_of_mem _ hk')
    rw [collect_cons]
    by_cases hin : k ∈ ks
    · exact ih _ hu' hin
    · have hk₀ : k = k₀ := by
        rcases List.mem_cons.mp hk with h | h
        · exact h
        · exact absurd h hin
      rw [collect_get?_of_no_user s st k ks _ (by
        intro k' hk' e
        rw [hu' k' hk'] at e
        exact hin (e ▸ hk'))]
      rw [hk₀, hu k₀ (List.mem_cons_self _ _)]
      simp [CfgMap.set, Assoc.get?_set]

/-- Claim C8, refuted as stated.  On the in-memory bucket whose listing of the
root leaves out the empty name, `SetAlertConfig` of a record with the empty
tenant ID succeeds from the empty bucket.  In the state it leaves, the one
stored object decodes to a config whose `User` is its key, the listing ends
without error and `GetAlertConfig ""` returns the record without error; yet
`ListAlertConfigs` returns the empty map, which has no entry under the stored
key `""`. -/
theorem list_key_set_counterexample :
    (⟨rootSkipBucket, emptyUserCodec⟩ : BucketAlertStore (List (String × Bytes))).SetAlertConfig
        [] cfgE = ([("", [4])], none) ∧
    KeyedByUser emptyUserCodec (fun st k => Assoc.get? st k) [("", ([4] : Bytes))] ∧
    rootSkipBucket.Iter [("", [4])] "" = ([], none) ∧
    Assoc.get? [("", ([4] : Bytes))] "" ≠ none ∧
    (⟨rootSkipBucket, emptyUserCodec⟩ : BucketAlertStore (List (String × Bytes))).GetAlertConfig
        [("", [4])] "" = (cfgE, none) ∧
    (⟨rootSkipBucket, emptyUserCodec⟩ : BucketAlertStore (List (String × Bytes))).ListAlertConfigs
        [("", [4])] = (some [], none) ∧
    CfgMap.get? [] "" = none := by
  refine ⟨by decide, ?_, by decide, by decide, by decide, by decide, rfl⟩
  intro k b h
  simp only [Assoc.get?] at h
  by_cases h1 : "" = k
  · rw [if_pos h1] at h
    exact ⟨cfgE, by rw [← Option.some.inj h]; rfl, h1⟩
  · rw [if_neg h1] at h
    exact absurd h (by simp)

/-- Claim C8, amended.  For every store state in which the object under each key
`k` decodes to a config with `User = k`, no store call fails (the classifier
rejects nil, `Get` hands out each stored object, the listing ends without
error) and the listing names only keys that hold an object: `ListAlertConfigs`
returns a map (not nil) and no error; the keys of the map are exactly the keys
that the listing names, hence exactly the keys that hold an object whenever the
listing names every such key; the entry under each key `k` is the config that
`GetAlertConfig k` returns, without error; and when no key holds an object the
map is empty. -/
theorem list_agrees_with_get (s : BucketAlertStore σ) (objects : σ → String → Option Bytes)
    (st : σ) (hnil : s.bucket.IsObjNotFoundErr none = false)
    (hget : ∀ k b, objects st k = some b → s.bucket.Get st k = .ok ⟨.ok b⟩)
    (hdec : KeyedByUser s.codec objects st) (hiter : (s.bucket.Iter st "").2 = none)
    (hlisted : ∀ k ∈ (s.bucket.Iter st "").1, objects st k ≠ none) :
    ∃ m : CfgMap, s.ListAlertConfigs st = (some m, none) ∧
      (∀ k, m.get? k ≠ none ↔ k ∈ (s.bucket.Iter st "").1) ∧
      ((∀ k, objects st k ≠ none → k ∈ (s.bucket.Iter st "").1) →
        ∀ k, m.get? k ≠ none ↔ objects st k ≠ none) ∧
      (∀ k c, m.get? k = some c → s.GetAlertConfig st k = (c, none)) ∧
      ((∀ k, objects st k = none) → m = []) := by
  -- every listed key fetches a config of that tenant
  have hfetch : ∀ k ∈ (s.bucket.Iter st "").1,
      (s.getAlertConfig st k).2 = none ∧ (s.getAlertConfig st k).1.User = k ∧
      s.GetAlertConfig st k = ((s.getAlertConfig st k).1, none) := by
    intro k hk
    have hob := hlisted k hk
    cases hb : objects st k with
    | none => exact absurd hb hob
    | some b =>
      obtain ⟨c, hc, hu⟩ := hdec k b hb
      have hg : s.getAlertConfig st k = (c, none) := getAlertConfig_of_get (hget k b hb) hc
      refine ⟨by rw [hg], by rw [hg]; exact hu, ?_⟩
      rw [GetAlertConfig_eq, hg]
      simp [hnil]
  -- the entry of a listed key
  have hin : ∀ k ∈ (s.bucket.Iter st "").1,
      Assoc.get? (collect s st [] (s.bucket.Iter st "").1) k = some (s.getAlertConfig st k).1 :=
    fun k hk => collect_get?_of_keyed s st k _ [] (fun k' hk' => (hfetch k' hk').2.1) hk
  -- no entry under any other key
  have hout : ∀ k, k ∉ (s.bucket.Iter st "").1 →
      Assoc.get? (collect s st [] (s.bucket.Iter st "").1) k = none := by
    intro k hk
    rw [collect_get?_of_no_user s st k _ [] (by
      intro k' hk' e
      rw [(hfetch k' hk').2.1] at e
      exact hk (e ▸ hk'))]
    rfl
  have hkeys : ∀ k, CfgMap.get? (collect s st [] (s.bucket.Iter st "").1) k ≠ none ↔
      k ∈ (s.bucket.Iter st "").1 := by
    intro k
    constructor
    · intro h
      by_contra hk
      exact h (hout k hk)
    · intro hk
      simp only [CfgMap.get?]
      rw [hin k hk]
      simp
  refine ⟨collect s st [] (s.bucket.Iter st "").1, ?_, hkeys, ?_, ?_, ?_⟩
  · rw [ListAlertConfigs_eq, runIter_all_ok s st _ _ [] (fun k hk => (hfetch k hk).1), hiter]
  · intro hall k
    rw [hkeys k]
    exact ⟨fun hk => hlisted k hk, fun hk => hall k hk⟩
  · intro k c hget'
    by_cases hk : k ∈ (s.bucket.Iter st "").1
    · simp only [CfgMap.get?] at hget'
      rw [hin k hk] at hget'
      rw [← Option.some.inj hget']
      exact (hfetch k hk).2.2
    · simp only [CfgMap.get?] at hget'
      rw [hout k hk] at hget'
      exact absurd hget' (by simp)
  · intro hempty
    have hnil' : (s.bucket.Iter st "").1 = [] := by
      apply List.eq_nil_iff_forall_not_mem.mpr
      intro k hk
      exact hlisted k hk (hempty k)
    rw [hnil']
    rfl

/-- Claim C8, amended, on the in-memory bucket holding the records of `u1` and
`u2`, whose listing names both. -/
theorem list_agrees_with_get_witness :
    (memStore []).bucket.IsObjNotFoundErr none = false ∧
    (∀ k b, Assoc.get? [("u1", ([2] : Bytes)), ("u2", [3])] k = some b →
      (memStore []).bucket.Get [("u1", [2]), ("u2", [3])] k = .ok ⟨.ok b⟩) ∧
    KeyedByUser (memStore []).codec (fun st k => Assoc.get? st k) [("u1", [2]), ("u2", [3])] ∧
    ((memStore []).bucket.Iter [("u1", [2]), ("u2", [3])] "").2 = none ∧
    (∀ k ∈ ((memStore []).bucket.Iter [("u1", [2]), ("u2", [3])] "").1,
      Assoc.get? [("u1", ([2] : Bytes)), ("u2", [3])] k ≠ none) ∧
    (memStore []).ListAlertConfigs [("u1", [2]), ("u2", [3])]
      = (some [("u2", cfgB), ("u1", cfgA2)], none) ∧
    (memStore []).ListAlertConfigs [] = (some [], none) ∧
    ∃ m : CfgMap, (memStore []).ListAlertConfigs [("u1", [2]), ("u2", [3])] = (some m, none) ∧
      (∀ k, m.get? k ≠ none ↔ k ∈ ((memStore []).bucket.Iter [("u1", [2]), ("u2", [3])] "").1) ∧
      ((∀ k, Assoc.get? [("u1", ([2] : Bytes)), ("u2", [3])] k ≠ none →
          k ∈ ((memStore []).bucket.Iter [("u1", [2]), ("u2", [3])] "").1) →
        ∀ k, m.get? k ≠ none ↔ Assoc.get? [("u1", ([2] : Bytes)), ("u2", [3])] k ≠ none) ∧
      (∀ k c, m.get? k = some c →
        (memStore []).GetAlertConfig [("u1", [2]), ("u2", [3])] k = (c, none)) ∧
      ((∀ k, Assoc.get? [("u1", ([2] : Bytes)), ("u2", [3])] k = none) → m = []) :=
  have hdec : KeyedByUser (memStore []).codec (fun st k => Assoc.get? st k)
      [("u1", [2]), ("u2", [3])] := by
    intro k b h
    simp only [Assoc.get?] at h
    by_cases h1 : "u1" = k
    · rw [if_pos h1] at h
      exact ⟨cfgA2, by rw [← Option.some.inj h]; rfl, h1⟩
    · rw [if_neg h1] at h
      by_cases h2 : "u2" = k
      · rw [if_pos h2] at h
        exact ⟨cfgB, by rw [← Option.some.inj h]; rfl, h2⟩
      · rw [if_neg h2] at h
        exact absurd h (by simp)
  have hget : ∀ k b, Assoc.get? [("u1", ([2] : Bytes)), ("u2", [3])] k = some b →
      (memStore []).bucket.Get [("u1", [2]), ("u2", [3])] k = .ok ⟨.ok b⟩ :=
    fun k b h => (memBucket_laws []).get_some _ k b h
  have hlisted : ∀ k ∈ ((memStore []).bucket.Iter [("u1", [2]), ("u2", [3])] "").1,
      Assoc.get? [("u1", ([2] : Bytes)), ("u2", [3])] k ≠ none :=
    fun k hk => (((memBucket_laws []).iter_ok _ _ rfl).2 k).mp hk
  ⟨by decide, hget, hdec, by decide, hlisted, by decide, by decide,
   list_agrees_with_get (memStore []) (fun st k => Assoc.get? st k)
     [("u1", [2]), ("u2", [3])] (by decide) hget hdec (by decide) hlisted⟩

/-! ## Deleting an absent tenant -/

/-- Claim C9.  For every tenant `u`: when the store's `Delete` fails with an
error that the store classifies as not-found, `DeleteAlertConfig u` returns nil
(not `ErrNotFound`), and on a key-value store the objects are left as they
were.  Hence, on a key-value store, whenever `DeleteAlertConfig u` returns nil
(the tenant is then absent), a second `DeleteAlertConfig u` right after it
returns nil again and leaves the objects as the first left them: two calls in
a row have the result and final state of one.  When moreover the outcome of
the store's `Delete` is determined by the stored objects, the same holds of a
first call that fails. -/
theorem delete_absent_succeeds (s : BucketAlertStore σ) (st : σ) (u : String) :
    (∀ st' e, s.bucket.Delete st u = (st', some e) →
      s.bucket.IsObjNotFoundErr (some e) = true →
      s.DeleteAlertConfig st u = (st', none)) ∧
    (∀ objects : σ → String → Option Bytes, KeyValueLaws s.bucket objects →
      (∀ st' e, s.bucket.Delete st u = (st', some e) →
        s.bucket.IsObjNotFoundErr (some e) = true →
        objects (s.DeleteAlertConfig st u).1 = objects st) ∧
      ((s.DeleteAlertConfig st u).2 = none →
        (s.DeleteAlertConfig (s.DeleteAlertConfig st u).1 u).2 = (s.DeleteAlertConfig st u).2 ∧
        objects (s.DeleteAlertConfig (s.DeleteAlertConfig st u).1 u).1
          = objects (s.DeleteAlertConfig st u).1) ∧
      (DeleteDetermined s.bucket objects →
        (s.DeleteAlertConfig (s.DeleteAlertConfig st u).1 u).2 = (s.DeleteAlertConfig st u).2 ∧
        objects (s.DeleteAlertConfig (s.DeleteAlertConfig st u).1 u).1
          = objects (s.DeleteAlertConfig st u).1)) := by
  refine ⟨?_, ?_⟩
  · intro st' e hd hc
    rw [DeleteAlertConfig_eq, hd]
    simp [hc]
  · intro objects hl
    have hnilcase : (s.DeleteAlertConfig st u).2 = none →
        (s.DeleteAlertConfig (s.DeleteAlertConfig st u).1 u).2 = (s.DeleteAlertConfig st u).2 ∧
        objects (s.DeleteAlertConfig (s.DeleteAlertConfig st u).1 u).1
          = objects (s.DeleteAlertConfig st u).1 := by
      intro hr
      have habs : objects (s.DeleteAlertConfig st u).1 u = none :=
        DeleteAlertConfig_absent_of_nil hl (Prod.ext rfl hr)
      refine ⟨?_, ?_⟩
      · rw [hr, DeleteAlertConfig_snd]
        rcases hl.delete_absent _ _ habs with h | h
        · rw [h]
          split <;> rfl
        · rw [if_pos h]
      · funext k
        rcases DeleteAlertConfig_objects hl (s.DeleteAlertConfig st u).1 u k with h | ⟨hk, h⟩
        · exact h
        · rw [h, hk, habs]
    refine ⟨?_, hnilcase, ?_⟩
    · intro st' e hd _
      rw [DeleteAlertConfig_fst, hd]
      exact hl.delete_err _ _ _ _ hd
    · intro hdet
      cases hr : (s.DeleteAlertConfig st u).2 with
      | none =>
        have h := hnilcase hr
        rw [hr] at h
        exact h
      | some e =>
        have hsnd := DeleteAlertConfig_snd s st u
        rw [hr] at hsnd
        have hnc : ¬ s.bucket.IsObjNotFoundErr (s.bucket.Delete st u).2 = true := by
          intro hc
          rw [if_pos hc] at hsnd
          exact absurd hsnd (by simp)
        rw [if_neg hnc] at hsnd
        have hd : s.bucket.Delete st u = ((s.DeleteAlertConfig st u).1, some e) := by
          rw [DeleteAlertConfig_fst]
          exact Prod.ext rfl hsnd.symm
        have hobj : objects (s.DeleteAlertConfig st u).1 = objects st :=
          hl.delete_err _ _ _ _ hd
        have hagain : (s.bucket.Delete (s.DeleteAlertConfig st u).1 u).2 = some e := by
          rw [hdet _ _ u hobj, ← hsnd]
        refine ⟨?_, ?_⟩
        · rw [← hsnd] at hnc
          rw [DeleteAlertConfig_snd, hagain, if_neg hnc]
        · rw [DeleteAlertConfig_fst]
          exact hl.delete_err _ _ _ _ (Prod.ext rfl hagain)

/-- Claim C9 on the in-memory bucket: tenant `u4` has no record. -/
theorem delete_absent_succeeds_witness :
    (memStore []).bucket.Delete [("u1", [1])] "u4" = ([("u1", [1])], some memNotFound) ∧
    (memStore []).bucket.IsObjNotFoundErr (some memNotFound) = true ∧
    (memStore []).DeleteAlertConfig [("u1", [1])] "u4" = ([("u1", [1])], none) ∧
    KeyValueLaws (memStore []).bucket (fun st k => Assoc.get? st k) ∧
    (fun k => Assoc.get? ((memStore []).DeleteAlertConfig [("u1", [1])] "u4").1 k)
      = (fun k => Assoc.get? [("u1", ([1] : Bytes))] k) ∧
    ((memStore []).DeleteAlertConfig [("u1", [1])] "u4").2 = none ∧
    (((memStore []).DeleteAlertConfig ((memStore []).DeleteAlertConfig [("u1", [1])] "u4").1 "u4").2
        = ((memStore []).DeleteAlertConfig [("u1", [1])] "u4").2 ∧
      (fun k => Assoc.get?
        ((memStore []).DeleteAlertConfig
          ((memStore []).DeleteAlertConfig [("u1", [1])] "u4").1 "u4").1 k)
        = (fun k => Assoc.get? ((memStore []).DeleteAlertConfig [("u1", [1])] "u4").1 k)) ∧
    DeleteDetermined (memStore []).bucket (fun st k => Assoc.get? st k) ∧
    ((memStore []).DeleteAlertConfig ((memStore []).DeleteAlertConfig [("u1", [1])] "u4").1 "u4").2
      = ((memStore []).DeleteAlertConfig [("u1", [1])] "u4").2 ∧
    (fun k => Assoc.get?
      ((memStore []).DeleteAlertConfig ((memStore []).DeleteAlertConfig [("u1", [1])] "u4").1 "u4").1
        k)
      = (fun k => Assoc.get? ((memStore []).DeleteAlertConfig [("u1", [1])] "u4").1 k) :=
  ⟨by decide, by decide,
   (delete_absent_succeeds (memStore []) [("u1", [1])] "u4").1 [("u1", [1])] memNotFound
     (by decide) (by decide),
   memBucket_laws [],
   ((delete_absent_succeeds (memStore []) [("u1", [1])] "u4").2
     (fun st k => Assoc.get? st k) (memBucket_laws [])).1 [("u1", [1])] memNotFound
     (by decide) (by decide),
   by decide,
   ((delete_absent_succeeds (memStore []) [("u1", [1])] "u4").2
     (fun st k => Assoc.get? st k) (memBucket_laws [])).2.1 (by decide),
   memBucket_deleteDetermined [],
   ((delete_absent_succeeds (memStore []) [("u1", [1])] "u4").2
     (fun st k => Assoc.get? st k) (memBucket_laws [])).2.2 (memBucket_deleteDetermined [])⟩

end Bucketclient
